import Mathlib

/-!
# Exercise tracker: a model of `index.js` and its properties

The four route handlers of `index.js` are embedded as functions over an explicit
database state.  The Mongoose collections are lists of documents in insertion
order; every store call of a handler may reject, which the caller chooses through
a `Faults` record.  Values of the JavaScript platform that the source does not fix
(how an identifier string is cast, how a date string is parsed, the local time
zone) are fields of a `Runtime`.
-/

namespace ExerciseTracker

/-! ## JavaScript numbers and `Number(...)` -/

/-- A JavaScript number: `NaN`, an infinity, or a finite double given by the rational
it equals.  The sign of zero is not kept. -/
inductive JsNum where
  | nan
  | inf (negative : Bool)
  | fin (q : ℚ)
deriving DecidableEq

/-- The power `2 ^ e` for an integer exponent. -/
def pow2 (e : Int) : ℚ :=
  if 0 ≤ e then ((2 ^ e.toNat : Nat) : ℚ) else 1 / ((2 ^ (-e).toNat : Nat) : ℚ)

/-- The power `10 ^ e` for an integer exponent. -/
def pow10 (e : Int) : ℚ :=
  if 0 ≤ e then ((10 ^ e.toNat : Nat) : ℚ) else 1 / ((10 ^ (-e).toNat : Nat) : ℚ)

/-- The number of halvings that bring `n` below 2, at most `fuel` of them. -/
def log2Fuel : Nat → Nat → Nat
  | 0, _ => 0
  | fuel + 1, n => if n < 2 then 0 else log2Fuel fuel (n / 2) + 1

/-- The exponent `e` with `2 ^ e ≤ a < 2 ^ (e + 1)`, for a positive rational. -/
def floorLog2 (a : ℚ) : Int :=
  let n := a.num.natAbs
  let e0 : Int := (log2Fuel n n : Int) - (log2Fuel a.den a.den : Int)
  if pow2 e0 ≤ a then e0 else e0 - 1

/-- The integer nearest to a non-negative rational, a tie going to the even one. -/
def roundHalfEven (x : ℚ) : Nat :=
  let n := x.num.natAbs
  let d := x.den
  let fl := n / d
  let r := n % d
  if 2 * r < d then fl
  else if d < 2 * r then fl + 1
  else if fl % 2 = 0 then fl else fl + 1

/-- The Number value for a mathematical value: the nearest double (53 significant bits,
exponents from -1022, ties to even), an infinity from `2 ^ 1024` on. -/
def roundToDouble (q : ℚ) : JsNum :=
  if q = 0 then JsNum.fin 0
  else
    let a := if q < 0 then -q else q
    let e := max (floorLog2 a) (-1022)
    let ulp := pow2 (e - 52)
    let r := (roundHalfEven (a / ulp) : ℚ) * ulp
    if pow2 1024 ≤ r then JsNum.inf (decide (q < 0))
    else JsNum.fin (if q < 0 then -r else r)

/-- The code points that `StringToNumber` strips from both ends (white space and
line terminators). -/
def isStrWhiteSpace (c : Char) : Bool :=
  let n := c.toNat
  n = 0x09 || n = 0x0A || n = 0x0B || n = 0x0C || n = 0x0D || n = 0x20 || n = 0xA0 ||
  n = 0x1680 || (0x2000 ≤ n && n ≤ 0x200A) || n = 0x2028 || n = 0x2029 || n = 0x202F ||
  n = 0x205F || n = 0x3000 || n = 0xFEFF

/-- The characters of a string without leading and trailing white space. -/
def trimWhiteSpace (cs : List Char) : List Char :=
  ((cs.dropWhile isStrWhiteSpace).reverse.dropWhile isStrWhiteSpace).reverse

/-- The value of one digit in the given radix (at most 16), if the character is one. -/
def digitValue (radix : Nat) (c : Char) : Option Nat :=
  let n := c.toNat
  let d :=
    if 48 ≤ n ∧ n ≤ 57 then some (n - 48)
    else if 97 ≤ n ∧ n ≤ 102 then some (n - 87)
    else if 65 ≤ n ∧ n ≤ 70 then some (n - 55)
    else none
  d.bind fun v => if v < radix then some v else none

/-- The number written by a sequence of digits, most significant first; `none` when
some character is not a digit of the radix.  The empty sequence gives `0`. -/
def digitsValue (radix : Nat) : List Char → Nat → Option Nat
  | [], acc => some acc
  | c :: cs, acc =>
    match digitValue radix c with
    | some d => digitsValue radix cs (acc * radix + d)
    | none => none

/-- Cut a sequence at the first character satisfying `p`: what is before it, and
what follows it when there is one. -/
def cutAt (p : Char → Bool) : List Char → List Char × Option (List Char)
  | [] => ([], none)
  | c :: cs =>
    if p c then ([], some cs)
    else
      let r := cutAt p cs
      (c :: r.1, r.2)

/-- The exponent part `[+-]digits` that follows `e` or `E`. -/
def exponentValue (cs : List Char) : Option Int :=
  match cs with
  | [] => none
  | '+' :: ds => if ds = [] then none else (digitsValue 10 ds 0).map Int.ofNat
  | '-' :: ds => if ds = [] then none else (digitsValue 10 ds 0).map fun n => - Int.ofNat n
  | ds => (digitsValue 10 ds 0).map Int.ofNat

/-- The mantissa `digits`, `digits.`, `digits.digits` or `.digits`. -/
def mantissaValue (cs : List Char) : Option ℚ :=
  match cutAt (fun c => c = '.') cs with
  | (ip, none) => if ip = [] then none else (digitsValue 10 ip 0).map fun n => (n : ℚ)
  | (ip, some fp) =>
    if ip = [] ∧ fp = [] then none
    else
      match digitsValue 10 ip 0, digitsValue 10 fp 0 with
      | some i, some f => some ((i : ℚ) + (f : ℚ) / (10 : ℚ) ^ fp.length)
      | _, _ => none

/-- An unsigned decimal literal: `Infinity`, or a mantissa with an optional exponent. -/
def unsignedDecimalValue (cs : List Char) : JsNum :=
  if cs = "Infinity".toList then JsNum.inf false
  else
    match cutAt (fun c => c = 'e' || c = 'E') cs with
    | (m, none) =>
      match mantissaValue m with
      | some q => roundToDouble q
      | none => JsNum.nan
    | (m, some e) =>
      match mantissaValue m, exponentValue e with
      | some q, some k => roundToDouble (q * pow10 k)
      | _, _ => JsNum.nan

/-- The negation of a number. -/
def JsNum.neg : JsNum → JsNum
  | JsNum.nan => JsNum.nan
  | JsNum.inf b => JsNum.inf (!b)
  | JsNum.fin q => JsNum.fin (-q)

/-- A hexadecimal, octal or binary integer literal after its prefix. -/
def radixLiteralValue (radix : Nat) (ds : List Char) : JsNum :=
  if ds = [] then JsNum.nan
  else
    match digitsValue radix ds 0 with
    | some n => roundToDouble (n : ℚ)
    | none => JsNum.nan

/-- The abstract operation `StringToNumber`: the empty or all-blank string is `0`, a
numeric literal is the double nearest to its value (an infinity when too large) and
anything else is `NaN`. -/
def stringToNumber (s : String) : JsNum :=
  match trimWhiteSpace s.toList with
  | [] => JsNum.fin 0
  | '0' :: 'x' :: ds => radixLiteralValue 16 ds
  | '0' :: 'X' :: ds => radixLiteralValue 16 ds
  | '0' :: 'o' :: ds => radixLiteralValue 8 ds
  | '0' :: 'O' :: ds => radixLiteralValue 8 ds
  | '0' :: 'b' :: ds => radixLiteralValue 2 ds
  | '0' :: 'B' :: ds => radixLiteralValue 2 ds
  | '+' :: ds => unsignedDecimalValue ds
  | '-' :: ds => (unsignedDecimalValue ds).neg
  | ds => unsignedDecimalValue ds

/-- The call `Number(v)` for a request field, which is absent (`undefined`) or a string. -/
def Number (v : Option String) : JsNum :=
  match v with
  | none => JsNum.nan
  | some s => stringToNumber s

/-- Truthiness of a request field: `undefined` and the empty string are falsy. -/
def truthy (v : Option String) : Bool :=
  match v with
  | none => false
  | some s => s ≠ ""

/-! ## Response bodies -/

/-- The value handed to `res.json`, as it is serialised. -/
inductive Json where
  | null
  | num (n : JsNum)
  | str (s : String)
  | arr (items : List Json)
  | obj (fields : List (String × Json))

mutual
/-- Equality of JSON values is decidable. -/
def Json.decEq : (a b : Json) → Decidable (a = b)
  | Json.null, Json.null => isTrue rfl
  | Json.num a, Json.num b =>
    if h : a = b then isTrue (congrArg Json.num h) else isFalse fun e => h (Json.num.inj e)
  | Json.str a, Json.str b =>
    if h : a = b then isTrue (congrArg Json.str h) else isFalse fun e => h (Json.str.inj e)
  | Json.arr a, Json.arr b =>
    match Json.decEqList a b with
    | isTrue h => isTrue (congrArg Json.arr h)
    | isFalse h => isFalse fun e => h (Json.arr.inj e)
  | Json.obj a, Json.obj b =>
    match Json.decEqFields a b with
    | isTrue h => isTrue (congrArg Json.obj h)
    | isFalse h => isFalse fun e => h (Json.obj.inj e)
  | Json.null, Json.num _ => isFalse nofun
  | Json.null, Json.str _ => isFalse nofun
  | Json.null, Json.arr _ => isFalse nofun
  | Json.null, Json.obj _ => isFalse nofun
  | Json.num _, Json.null => isFalse nofun
  | Json.num _, Json.str _ => isFalse nofun
  | Json.num _, Json.arr _ => isFalse nofun
  | Json.num _, Json.obj _ => isFalse nofun
  | Json.str _, Json.null => isFalse nofun
  | Json.str _, Json.num _ => isFalse nofun
  | Json.str _, Json.arr _ => isFalse nofun
  | Json.str _, Json.obj _ => isFalse nofun
  | Json.arr _, Json.null => isFalse nofun
  | Json.arr _, Json.num _ => isFalse nofun
  | Json.arr _, Json.str _ => isFalse nofun
  | Json.arr _, Json.obj _ => isFalse nofun
  | Json.obj _, Json.null => isFalse nofun
  | Json.obj _, Json.num _ => isFalse nofun
  | Json.obj _, Json.str _ => isFalse nofun
  | Json.obj _, Json.arr _ => isFalse nofun
/-- Equality of JSON arrays is decidable. -/
def Json.decEqList : (a b : List Json) → Decidable (a = b)
  | [], [] => isTrue rfl
  | [], _ :: _ => isFalse nofun
  | _ :: _, [] => isFalse nofun
  | x :: xs, y :: ys =>
    match Json.decEq x y, Json.decEqList xs ys with
    | isTrue h, isTrue t => isTrue (by rw [h, t])
    | isFalse h, _ => isFalse fun e => h (List.cons.inj e).1
    | _, isFalse t => isFalse fun e => t (List.cons.inj e).2
/-- Equality of the field lists of JSON objects is decidable. -/
def Json.decEqFields : (a b : List (String × Json)) → Decidable (a = b)
  | [], [] => isTrue rfl
  | [], _ :: _ => isFalse nofun
  | _ :: _, [] => isFalse nofun
  | (k, x) :: xs, (l, y) :: ys =>
    if hk : k = l then
      match Json.decEq x y, Json.decEqFields xs ys with
      | isTrue h, isTrue t => isTrue (by rw [hk, h, t])
      | isFalse h, _ => isFalse fun e => h (Prod.mk.inj (List.cons.inj e).1).2
      | _, isFalse t => isFalse fun e => t (List.cons.inj e).2
    else isFalse fun e => hk (Prod.mk.inj (List.cons.inj e).1).1
end

instance : DecidableEq Json := Json.decEq

/-- The response `res.json` sends: the status (200 unless `res.status` was called)
and the body. -/
structure Response where
  status : Nat
  body : Json
deriving DecidableEq

/-- How a handler invocation ends: it sends a response, or its promise rejects: the
failure escapes the handler, which sends nothing. -/
inductive Outcome where
  | sent (r : Response)
  | rejected
deriving DecidableEq

/-- A number as `JSON.stringify` writes it: `NaN` and the infinities become `null`. -/
def Json.ofNumber : JsNum → Json
  | JsNum.fin q => Json.num (JsNum.fin q)
  | _ => Json.null

/-- The body `{ error: msg }`. -/
def errorBody (msg : String) : Json :=
  Json.obj [("error", Json.str msg)]

/-! ## Identifiers -/

/-- Modelled from the spec: the generator of document identifiers is not part of the
source (`new User(...)` and `new Exercise(...)` obtain an `_id` from the driver); the spec
assumes "a unique opaque identifier per inserted record".  An identifier is the
number of identifiers handed out before it. -/
structure ObjectId where
  n : Nat
deriving DecidableEq

/-- The digits of `n` in base 16, least significant first, padded with zeros to
`width` digits. -/
def hexDigitsLE : Nat → Nat → Nat → List Nat
  | 0, _, _ => []
  | fuel + 1, width, n =>
    if n = 0 ∧ width = 0 then []
    else (n % 16) :: hexDigitsLE fuel (width - 1) (n / 16)

/-- The hexadecimal rendering of an identifier (`toString`, `toJSON`): 24 digits, more
only once the counter no longer fits. -/
def ObjectId.toHexString (id : ObjectId) : String :=
  String.mk ((hexDigitsLE (id.n + 24) 24 id.n).reverse.map Nat.digitChar)

/-- The number a little-endian list of base-16 digits writes. -/
def ofHexDigitsLE : List Nat → Nat
  | [] => 0
  | d :: ds => d + 16 * ofHexDigitsLE ds

/-- The value of a hexadecimal digit character. -/
def hexCharValue (c : Char) : Nat :=
  (digitValue 16 c).getD 0

/-! ## Dates -/

/-- A `Date` object: its time value in milliseconds since the epoch, or `none` for
the Invalid Date. -/
abbrev JsDate := Option Int

/-- Milliseconds in a day. -/
def msPerDay : Int := 86400000

/-- The number of the day a time value falls in. -/
def Date.day (t : Int) : Int := t / msPerDay

/-- The day of the week of a time value, `0` for Sunday. -/
def Date.weekDay (t : Int) : Int := (Date.day t + 4) % 7

/-- The year, month (1 to 12) and day of the month of a day number, in the
proleptic Gregorian calendar. -/
def Date.civil (days : Int) : Int × Int × Int :=
  let z := days + 719468
  let era := z / 146097
  let doe := z - era * 146097
  let yoe := (doe - doe / 1460 + doe / 36524 - doe / 146096) / 365
  let doy := doe - (365 * yoe + yoe / 4 - yoe / 100)
  let mp := (5 * doy + 2) / 153
  let d := doy - (153 * mp + 2) / 5 + 1
  let m := if mp < 10 then mp + 3 else mp - 9
  let y := yoe + era * 400
  (if m ≤ 2 then y + 1 else y, m, d)

/-- The day number of a year, month and day of the month. -/
def Date.daysFromCivil (y m d : Int) : Int :=
  let y1 := if m ≤ 2 then y - 1 else y
  let era := y1 / 400
  let yoe := y1 - era * 400
  let doy := (153 * (if m > 2 then m - 3 else m + 9) + 2) / 5 + d - 1
  let doe := yoe * 365 + yoe / 4 - yoe / 100 + doy
  era * 146097 + doe - 719468

/-- Names of the days of the week as `toDateString` prints them. -/
def weekDayNames : List String := ["Sun", "Mon", "Tue", "Wed", "Thu", "Fri", "Sat"]

/-- Names of the months as `toDateString` prints them. -/
def monthNames : List String :=
  ["Jan", "Feb", "Mar", "Apr", "May", "Jun", "Jul", "Aug", "Sep", "Oct", "Nov", "Dec"]

/-- A natural number in decimal, padded on the left with zeros to `width` digits. -/
def padZero (width n : Nat) : String :=
  let ds := Nat.toDigits 10 n
  String.mk (List.replicate (width - ds.length) '0' ++ ds)

/-- What the platform decides and the source does not fix, taken as a parameter:
how `findById` casts the path parameter to an identifier (`none`: the cast fails),
what `new Date(string)` reads (`none`: the Invalid Date), and the offset of local
time from UTC, in milliseconds, at a time value. -/
structure Runtime where
  castObjectId : String → Option ObjectId
  dateParse : String → JsDate
  localTZA : Int → Int

/-- The method `Date.prototype.toDateString` of a valid date: day of the week, month, day of
the month and year in local time, as in `Mon Jan 01 2024`. -/
def Date.toDateString (rt : Runtime) (t : Int) : String :=
  let tl := t + rt.localTZA t
  let ymd := Date.civil (Date.day tl)
  weekDayNames.getD (Date.weekDay tl).toNat "" ++ " " ++
  monthNames.getD (ymd.2.1 - 1).toNat "" ++ " " ++
  padZero 2 ymd.2.2.toNat ++ " " ++
  (if 0 ≤ ymd.1 then "" else "-") ++ padZero 4 ymd.1.natAbs

/-- The object `new Date(v)` for a request field. -/
def Date.new (rt : Runtime) (v : Option String) : JsDate :=
  match v with
  | some s => rt.dateParse s
  | none => none

/-! ## The collections -/

/-- A document of the `User` model (`userSchema`). -/
structure User where
  _id : ObjectId
  username : String
deriving DecidableEq

/-- A document of the `Exercise` model (`exerciseSchema`). -/
structure Exercise where
  _id : ObjectId
  userId : String
  description : String
  duration : JsNum
  date : Int
deriving DecidableEq

/-- The database, with the number of identifiers handed out so far. -/
structure State where
  users : List User
  exercises : List Exercise
  nextId : Nat
deriving DecidableEq

/-- The state at start-up: empty collections. -/
def State.empty : State := { users := [], exercises := [], nextId := 0 }

/-- Which store calls of the request being served reject for a reason of the
store itself (connection lost, time-out). -/
structure Faults where
  findById : Bool
  save : Bool
  find : Bool
deriving DecidableEq

/-- No store call rejects. -/
def Faults.none : Faults := { findById := false, save := false, find := false }

/-- Why a store call rejected. -/
inductive StoreError where
  | unavailable
  | cast
  | validation
deriving DecidableEq

deriving instance DecidableEq for Except

/-- A `User` document under construction: `new User({ username })`. -/
structure NewUser where
  _id : ObjectId
  username : Option String
deriving DecidableEq

/-- An `Exercise` document under construction. -/
structure NewExercise where
  _id : ObjectId
  userId : String
  description : Option String
  duration : JsNum
  date : JsDate
deriving DecidableEq

/-- Validation against `userSchema`: `username` is required, and a required string
must not be empty. -/
def User.validate (d : NewUser) : Option User :=
  match d.username with
  | some name => if name = "" then Option.none else some { _id := d._id, username := name }
  | Option.none => Option.none

/-- Validation against `exerciseSchema`: the four paths are required; a required string
must not be empty, `NaN` is no `Number` and the Invalid Date is no `Date`. -/
def Exercise.validate (d : NewExercise) : Option Exercise :=
  match d.description, d.date with
  | some desc, some t =>
    if d.userId = "" ∨ desc = "" ∨ d.duration = JsNum.nan then Option.none
    else some { _id := d._id, userId := d.userId, description := desc,
                duration := d.duration, date := t }
  | _, _ => Option.none

/-- The call `User.findById(id)`: the user with that identifier, or `null`. -/
def User.findById (rt : Runtime) (f : Faults) (s : State) (id : String) :
    Except StoreError (Option User) :=
  if f.findById then Except.error StoreError.unavailable
  else
    match rt.castObjectId id with
    | Option.none => Except.error StoreError.cast
    | some oid => Except.ok (s.users.find? fun u => u._id = oid)

/-- The call `newUser.save()`: validate, then insert.  Gives the saved document. -/
def User.save (f : Faults) (s : State) (d : NewUser) : Except StoreError (State × User) :=
  match User.validate d with
  | Option.none => Except.error StoreError.validation
  | some u =>
    if f.save then Except.error StoreError.unavailable
    else Except.ok ({ s with users := s.users ++ [u] }, u)

/-- The call `newExercise.save()`: validate, then insert.  Gives the saved document. -/
def Exercise.save (f : Faults) (s : State) (d : NewExercise) :
    Except StoreError (State × Exercise) :=
  match Exercise.validate d with
  | Option.none => Except.error StoreError.validation
  | some e =>
    if f.save then Except.error StoreError.unavailable
    else Except.ok ({ s with exercises := s.exercises ++ [e] }, e)

/-- The call `User.find({}, "username _id")`: every user. -/
def User.find (f : Faults) (s : State) : Except StoreError (List User) :=
  if f.find then Except.error StoreError.unavailable else Except.ok s.users

/-- The `date` part of the logs filter: `{ $gte, $lte }`, each optional. -/
structure DateRange where
  gte : Option JsDate
  lte : Option JsDate
deriving DecidableEq

/-- The filter of the logs query: `{ userId, date }`, `date` optional. -/
structure Filter where
  userId : String
  date : Option DateRange
deriving DecidableEq

/-- A bound of a filter is usable when absent or a valid date. -/
def boundValid (b : Option JsDate) : Bool :=
  match b with
  | some Option.none => false
  | _ => true

/-- Whether a filter can be cast to the schema: no bound is the Invalid Date. -/
def Filter.valid (fl : Filter) : Bool :=
  match fl.date with
  | Option.none => true
  | some r => boundValid r.gte && boundValid r.lte

/-- Whether a date satisfies `$gte`. -/
def satisfiesGte (b : Option JsDate) (t : Int) : Bool :=
  match b with
  | some (some lo) => decide (lo ≤ t)
  | _ => true

/-- Whether a date satisfies `$lte`. -/
def satisfiesLte (b : Option JsDate) (t : Int) : Bool :=
  match b with
  | some (some hi) => decide (t ≤ hi)
  | _ => true

/-- Whether an exercise matches a filter. -/
def Filter.matches (fl : Filter) (e : Exercise) : Bool :=
  decide (e.userId = fl.userId) &&
  match fl.date with
  | Option.none => true
  | some r => satisfiesGte r.gte e.date && satisfiesLte r.lte e.date

/-- A row of a logs query after `.select("description duration date -_id")`. -/
structure LogRow where
  description : String
  duration : JsNum
  date : Int
deriving DecidableEq

/-- The projection of an exercise on the selected paths. -/
def Exercise.select (e : Exercise) : LogRow :=
  { description := e.description, duration := e.duration, date := e.date }

/-- The effect of `.limit(n)` on the rows a query yields.  MongoDB treats a limit of
`0` as no limit and a negative limit `-k` as the limit `k`; a limit that is not an
integer (a fraction, `NaN`, an infinity) makes the query reject. -/
def applyLimit (limit : Option JsNum) (rows : List LogRow) : Except StoreError (List LogRow) :=
  match limit with
  | Option.none => Except.ok rows
  | some (JsNum.fin q) =>
    if q.den = 1 then
      if q.num = 0 then Except.ok rows else Except.ok (rows.take q.num.natAbs)
    else Except.error StoreError.cast
  | some _ => Except.error StoreError.cast

/-- The query `Exercise.find(filter).select(...)`, with `.limit(n)` when given, then `.exec()`. -/
def Exercise.find (f : Faults) (s : State) (fl : Filter) (limit : Option JsNum) :
    Except StoreError (List LogRow) :=
  if f.find then Except.error StoreError.unavailable
  else if fl.valid then
    applyLimit limit ((s.exercises.filter fl.matches).map Exercise.select)
  else Except.error StoreError.cast

/-! ## The route handlers -/

/-- The body `{ username, _id }` of a registration. -/
def userBody (u : User) : Json :=
  Json.obj [("username", Json.str u.username), ("_id", Json.str u._id.toHexString)]

/-- An element of the user list, a document with the paths `username` and `_id`. -/
def userItem (u : User) : Json :=
  Json.obj [("_id", Json.str u._id.toHexString), ("username", Json.str u.username)]

/-- The body `{ _id, username, date, duration, description }` of an added exercise. -/
def exerciseBody (rt : Runtime) (user : User) (e : Exercise) : Json :=
  Json.obj [("_id", Json.str user._id.toHexString), ("username", Json.str user.username),
    ("date", Json.str (Date.toDateString rt e.date)), ("duration", Json.ofNumber e.duration),
    ("description", Json.str e.description)]

/-- An element `{ description, duration, date }` of a log. -/
def logItem (rt : Runtime) (e : LogRow) : Json :=
  Json.obj [("description", Json.str e.description), ("duration", Json.ofNumber e.duration),
    ("date", Json.str (Date.toDateString rt e.date))]

/-- The body `{ _id, username, count, log }` of a logs query. -/
def logsBody (rt : Runtime) (user : User) (exercises : List LogRow) : Json :=
  Json.obj [("_id", Json.str user._id.toHexString), ("username", Json.str user.username),
    ("count", Json.num (JsNum.fin (exercises.length : ℚ))),
    ("log", Json.arr (exercises.map (logItem rt)))]

/-- Handler `app.post("/api/users")`: create a user. -/
def postUsers (f : Faults) (s : State) (username : Option String) : State × Outcome :=
  let newUser : NewUser := { _id := { n := s.nextId }, username := username }
  let s1 : State := { s with nextId := s.nextId + 1 }
  match User.save f s1 newUser with
  | Except.ok (s2, saved) => (s2, Outcome.sent { status := 200, body := userBody saved })
  | Except.error _ =>
    (s1, Outcome.sent { status := 500, body := errorBody "Error creating user" })

/-- Handler `app.get("/api/users")`: list all users.  The handler has no `try`: a rejection
of the read is not caught. -/
def getUsers (f : Faults) (s : State) : State × Outcome :=
  match User.find f s with
  | Except.ok users => (s, Outcome.sent { status := 200, body := Json.arr (users.map userItem) })
  | Except.error _ => (s, Outcome.rejected)

/-- Handler `app.post("/api/users/:_id/exercises")`: add an exercise.  `now` is the time value
of `new Date()`. -/
def postUserExercises (rt : Runtime) (f : Faults) (now : Int) (s : State) (id : String)
    (description duration date : Option String) : State × Outcome :=
  match User.findById rt f s id with
  | Except.error _ =>
    (s, Outcome.sent { status := 500, body := errorBody "Error adding exercise" })
  | Except.ok Option.none =>
    (s, Outcome.sent { status := 200, body := errorBody "User not found" })
  | Except.ok (some user) =>
    let exerciseDate : JsDate := if truthy date then Date.new rt date else some now
    let newExercise : NewExercise :=
      { _id := { n := s.nextId }, userId := user._id.toHexString, description := description,
        duration := Number duration, date := exerciseDate }
    let s1 : State := { s with nextId := s.nextId + 1 }
    match Exercise.save f s1 newExercise with
    | Except.ok (s2, saved) =>
      (s2, Outcome.sent { status := 200, body := exerciseBody rt user saved })
    | Except.error _ =>
      (s1, Outcome.sent { status := 500, body := errorBody "Error adding exercise" })

/-- The filter the logs handler builds from the query parameters `from` and `to`. -/
def logsFilter (rt : Runtime) (user : User) (from_ to_ : Option String) : Filter :=
  { userId := user._id.toHexString,
    date :=
      if truthy from_ || truthy to_ then
        some { gte := if truthy from_ then some (Date.new rt from_) else Option.none,
               lte := if truthy to_ then some (Date.new rt to_) else Option.none }
      else Option.none }

/-- Handler `app.get("/api/users/:_id/logs")`: the log of a user. -/
def getUserLogs (rt : Runtime) (f : Faults) (s : State) (id : String)
    (from_ to_ limit : Option String) : State × Outcome :=
  match User.findById rt f s id with
  | Except.error _ =>
    (s, Outcome.sent { status := 500, body := errorBody "Error fetching logs" })
  | Except.ok Option.none =>
    (s, Outcome.sent { status := 200, body := errorBody "User not found" })
  | Except.ok (some user) =>
    let filter := logsFilter rt user from_ to_
    let lim : Option JsNum := if truthy limit then some (Number limit) else Option.none
    match Exercise.find f s filter lim with
    | Except.ok exercises =>
      (s, Outcome.sent { status := 200, body := logsBody rt user exercises })
    | Except.error _ =>
      (s, Outcome.sent { status := 500, body := errorBody "Error fetching logs" })

/-! ## Requests and reachable states -/

/-- A request to one of the four routes. -/
inductive Request where
  | postUsers (username : Option String)
  | getUsers
  | postUserExercises (id : String) (description duration date : Option String)
  | getUserLogs (id : String) (from_ to_ limit : Option String)
deriving DecidableEq

/-- The conditions a request is served under: which store calls reject and the
current time. -/
structure Env where
  faults : Faults
  now : Int
deriving DecidableEq

/-- Serve one request. -/
def handle (rt : Runtime) (env : Env) (s : State) : Request → State × Outcome
  | Request.postUsers username => postUsers env.faults s username
  | Request.getUsers => getUsers env.faults s
  | Request.postUserExercises id description duration date =>
    postUserExercises rt env.faults env.now s id description duration date
  | Request.getUserLogs id from_ to_ limit =>
    getUserLogs rt env.faults s id from_ to_ limit

/-- Serve a sequence of requests, each under its own conditions. -/
def run (rt : Runtime) (s : State) : List (Env × Request) → State
  | [] => s
  | (env, req) :: rest => run rt (handle rt env s req).1 rest

/-- The states the API can reach from the empty database. -/
inductive Reachable (rt : Runtime) : State → Prop where
  | init : Reachable rt State.empty
  | step (s : State) (env : Env) (req : Request) :
      Reachable rt s → Reachable rt (handle rt env s req).1

/-! ## A runtime for evaluating examples -/

/-- An identifier written as 24 hexadecimal digits. -/
def parseObjectId (s : String) : Option ObjectId :=
  if s.length = 24 then (digitsValue 16 s.toList 0).map ObjectId.mk else Option.none

/-- The date-only form `YYYY-MM-DD` of the date-time string format, read as midnight
UTC; a day of the month up to 31 that the month does not have runs over into the next
month.  The example runtime reads no other form. -/
def parseIsoDate (s : String) : JsDate :=
  match s.toList with
  | [y1, y2, y3, y4, '-', m1, m2, '-', d1, d2] =>
    match digitsValue 10 [y1, y2, y3, y4] 0, digitsValue 10 [m1, m2] 0,
        digitsValue 10 [d1, d2] 0 with
    | some y, some m, some d =>
      if 1 ≤ m ∧ m ≤ 12 ∧ 1 ≤ d ∧ d ≤ 31 then
        some (Date.daysFromCivil y m d * msPerDay)
      else Option.none
    | _, _, _ => Option.none
  | _ => Option.none

/-- A process in the UTC zone whose driver accepts 24-digit identifiers, with what its
`Date` reads cut down to the date-only form; the examples give it no other date
string. -/
def utcRuntime : Runtime :=
  { castObjectId := parseObjectId, dateParse := parseIsoDate, localTZA := fun _ => 0 }

/-! ## Properties of states -/

/-- What every request keeps true: identifiers in use are below the counter, every
exercise names a stored user, and no stored duration is `NaN`. -/
def Inv (s : State) : Prop :=
  (∀ u ∈ s.users, u._id.n < s.nextId) ∧
  (∀ e ∈ s.exercises, ∃ u ∈ s.users, e.userId = u._id.toHexString) ∧
  (∀ e ∈ s.exercises, e.duration ≠ JsNum.nan)

/-- A duration as the data model describes it: a non-negative integer. -/
def JsNum.isNonNegInteger : JsNum → Bool
  | JsNum.fin q => decide (q.den = 1) && decide (0 ≤ q.num)
  | _ => false

/-- The bound a query parameter gives: a date when the parameter is supplied (and not
empty), no bound otherwise. -/
def givenBound (rt : Runtime) (v : Option String) : Option Int :=
  if truthy v then Date.new rt v else Option.none

/-- The log as the specification describes it: the stored entries owned by the user
whose date is at or after `lo` and at or before `hi`, for the bounds that are given. -/
def specLog (s : State) (user : User) (lo hi : Option Int) : List Exercise :=
  s.exercises.filter fun e =>
    decide (e.userId = user._id.toHexString) &&
    (match lo with
      | some l => decide (l ≤ e.date)
      | Option.none => true) &&
    (match hi with
      | some h => decide (e.date ≤ h)
      | Option.none => true)

/-! ## States and requests for the examples -/

/-- The conditions of an undisturbed request made at 2024-01-01T00:00:00Z. -/
def calm : Env := { faults := Faults.none, now := 1704067200000 }

/-- The identifier the first document of a fresh database receives. -/
def firstId : String := "000000000000000000000000"

/-- Register Alice, then Bob. -/
def twoUsersScript : List (Env × Request) :=
  [(calm, Request.postUsers (some "Alice")), (calm, Request.postUsers (some "Bob"))]

/-- The database after `twoUsersScript`. -/
def twoUsers : State := run utcRuntime State.empty twoUsersScript

/-- Register Alice and log three exercises, dated 2023-01-01, 2023-06-15 and 2023-12-31. -/
def threeEntriesScript : List (Env × Request) :=
  [(calm, Request.postUsers (some "Alice")),
   (calm, Request.postUserExercises firstId (some "swim") (some "20") (some "2023-01-01")),
   (calm, Request.postUserExercises firstId (some "run") (some "30") (some "2023-06-15")),
   (calm, Request.postUserExercises firstId (some "row") (some "40") (some "2023-12-31"))]

/-- The database after `threeEntriesScript`. -/
def threeEntries : State := run utcRuntime State.empty threeEntriesScript

/-- Register Alice and log five exercises. -/
def fiveEntriesScript : List (Env × Request) :=
  [(calm, Request.postUsers (some "Alice")),
   (calm, Request.postUserExercises firstId (some "a") (some "1") (some "2023-01-01")),
   (calm, Request.postUserExercises firstId (some "b") (some "2") (some "2023-01-02")),
   (calm, Request.postUserExercises firstId (some "c") (some "3") (some "2023-01-03")),
   (calm, Request.postUserExercises firstId (some "d") (some "4") (some "2023-01-04")),
   (calm, Request.postUserExercises firstId (some "e") (some "5") (some "2023-01-05"))]

/-- The database after `fiveEntriesScript`. -/
def fiveEntries : State := run utcRuntime State.empty fiveEntriesScript

/-- Register Alice and log an exercise of "-5" minutes and one of "30.5" minutes. -/
def oddDurationsScript : List (Env × Request) :=
  [(calm, Request.postUsers (some "Alice")),
   (calm, Request.postUserExercises firstId (some "run") (some "-5") Option.none),
   (calm, Request.postUserExercises firstId (some "walk") (some "30.5") Option.none)]

/-- The database after `oddDurationsScript`. -/
def oddDurations : State := run utcRuntime State.empty oddDurationsScript

/-- The user Alice of the example databases. -/
def alice : User := { _id := { n := 0 }, username := "Alice" }

/-- A store whose reads reject. -/
def readsFail : Faults := { findById := false, save := false, find := true }

/-! # Lemmas -/

/-! ## Identifiers: the rendering is injective and never empty -/

theorem ofHexDigitsLE_hexDigitsLE (fuel : Nat) :
    ∀ width n, n + width ≤ fuel → ofHexDigitsLE (hexDigitsLE fuel width n) = n := by
  induction fuel with
  | zero =>
    intro width n h
    have : n = 0 := by omega
    simp [hexDigitsLE, ofHexDigitsLE, this]
  | succ fuel ih =>
    intro width n h
    unfold hexDigitsLE
    split
    · rename_i h0
      simp [ofHexDigitsLE, h0.1]
    · rename_i h0
      have hle : n / 16 + (width - 1) ≤ fuel := by omega
      rw [ofHexDigitsLE, ih _ _ hle]
      omega

theorem hexDigitsLE_lt (fuel : Nat) :
    ∀ width n, ∀ d ∈ hexDigitsLE fuel width n, d < 16 := by
  induction fuel with
  | zero => intro width n d hd; simp [hexDigitsLE] at hd
  | succ fuel ih =>
    intro width n d hd
    unfold hexDigitsLE at hd
    split at hd
    · simp at hd
    · rcases List.mem_cons.1 hd with h | h
      · omega
      · exact ih _ _ _ h

theorem hexCharValue_digitChar (d : Nat) (h : d < 16) :
    hexCharValue (Nat.digitChar d) = d := by
  interval_cases d <;> decide

theorem map_digitChar_injective (a b : List Nat) (ha : ∀ d ∈ a, d < 16)
    (hb : ∀ d ∈ b, d < 16) (h : a.map Nat.digitChar = b.map Nat.digitChar) : a = b := by
  have h2 := congrArg (List.map hexCharValue) h
  rw [List.map_map, List.map_map] at h2
  have ea : a.map (hexCharValue ∘ Nat.digitChar) = a := by
    conv_rhs => rw [← List.map_id a]
    exact List.map_congr_left fun d hd => hexCharValue_digitChar d (ha d hd)
  have eb : b.map (hexCharValue ∘ Nat.digitChar) = b := by
    conv_rhs => rw [← List.map_id b]
    exact List.map_congr_left fun d hd => hexCharValue_digitChar d (hb d hd)
  rw [ea, eb] at h2
  exact h2

theorem ObjectId.toHexString_injective (a b : ObjectId)
    (h : a.toHexString = b.toHexString) : a = b := by
  unfold ObjectId.toHexString at h
  have h1 : List.map Nat.digitChar (hexDigitsLE (a.n + 24) 24 a.n).reverse =
      List.map Nat.digitChar (hexDigitsLE (b.n + 24) 24 b.n).reverse := congrArg String.data h
  have h2 := map_digitChar_injective _ _
    (fun d hd => hexDigitsLE_lt _ _ _ d (List.mem_reverse.1 hd))
    (fun d hd => hexDigitsLE_lt _ _ _ d (List.mem_reverse.1 hd)) h1
  have h3 := List.reverse_injective h2
  have h4 := congrArg ofHexDigitsLE h3
  rw [ofHexDigitsLE_hexDigitsLE _ _ _ (le_refl _),
    ofHexDigitsLE_hexDigitsLE _ _ _ (le_refl _)] at h4
  cases a; cases b; simp_all

theorem ObjectId.toHexString_ne_empty (a : ObjectId) : a.toHexString ≠ "" := by
  unfold ObjectId.toHexString
  intro h
  have h1 := congrArg String.length h
  simp [hexDigitsLE] at h1

/-! ## What each handler does to the state -/

theorem userValidate_some (d : NewUser) (u : User) (h : User.validate d = some u) :
    u._id = d._id ∧ d.username = some u.username ∧ u.username ≠ "" := by
  unfold User.validate at h
  split at h
  · rename_i name hname
    split at h
    · cases h
    · rename_i hne
      cases h
      exact ⟨rfl, hname, hne⟩
  · cases h

theorem exerciseValidate_some (d : NewExercise) (e : Exercise)
    (h : Exercise.validate d = some e) :
    e._id = d._id ∧ e.userId = d.userId ∧ d.description = some e.description ∧
      e.duration = d.duration ∧ d.date = some e.date ∧ e.userId ≠ "" ∧
      e.description ≠ "" ∧ e.duration ≠ JsNum.nan := by
  unfold Exercise.validate at h
  split at h
  · rename_i desc t hdesc hdate
    split at h
    · cases h
    · rename_i hne
      cases h
      simp only [not_or] at hne
      exact ⟨rfl, rfl, hdesc, rfl, hdate, hne.1, hne.2.1, hne.2.2⟩
  · cases h

theorem postUsers_ok (f : Faults) (s : State) (username : Option String) (u : User)
    (hv : User.validate { _id := { n := s.nextId }, username := username } = some u)
    (hf : f.save = false) :
    postUsers f s username =
      ({ users := s.users ++ [u], exercises := s.exercises, nextId := s.nextId + 1 },
        Outcome.sent { status := 200, body := userBody u }) := by
  simp [postUsers, User.save, hv, hf]

theorem postUsers_error (f : Faults) (s : State) (username : Option String)
    (h : User.validate { _id := { n := s.nextId }, username := username } = none ∨
      f.save = true) :
    postUsers f s username =
      ({ users := s.users, exercises := s.exercises, nextId := s.nextId + 1 },
        Outcome.sent { status := 500, body := errorBody "Error creating user" }) := by
  rcases h with h | h
  · simp [postUsers, User.save, h]
  · cases hv : User.validate { _id := { n := s.nextId }, username := username } <;>
      simp [postUsers, User.save, h, hv]

theorem postUsers_state (f : Faults) (s : State) (username : Option String) :
    (postUsers f s username).1.exercises = s.exercises ∧
    (postUsers f s username).1.nextId = s.nextId + 1 ∧
    ((postUsers f s username).1.users = s.users ∨
      ∃ name, username = some name ∧ name ≠ "" ∧
        (postUsers f s username).1.users =
          s.users ++ [{ _id := { n := s.nextId }, username := name }]) := by
  cases hv : User.validate { _id := { n := s.nextId }, username := username } with
  | none => rw [postUsers_error f s username (Or.inl hv)]; simp
  | some u =>
    obtain ⟨h1, h2, h3⟩ := userValidate_some _ _ hv
    cases hf : f.save with
    | true => rw [postUsers_error f s username (Or.inr hf)]; simp
    | false =>
      rw [postUsers_ok f s username u hv hf]
      refine ⟨rfl, rfl, Or.inr ⟨u.username, h2, h3, ?_⟩⟩
      cases u
      simp_all

theorem getUsers_state (f : Faults) (s : State) : (getUsers f s).1 = s := by
  unfold getUsers
  split <;> rfl

theorem getUserLogs_state (rt : Runtime) (f : Faults) (s : State) (id : String)
    (from_ to_ limit : Option String) : (getUserLogs rt f s id from_ to_ limit).1 = s := by
  unfold getUserLogs
  split
  · rfl
  · rfl
  · dsimp only
    split <;> rfl

theorem User.findById_some (rt : Runtime) (f : Faults) (s : State) (id : String) (user : User)
    (h : User.findById rt f s id = Except.ok (some user)) :
    f.findById = false ∧ rt.castObjectId id = some user._id ∧ user ∈ s.users ∧
      s.users.find? (fun u => u._id = user._id) = some user := by
  unfold User.findById at h
  split at h
  · cases h
  · rename_i hf
    split at h
    · cases h
    · rename_i oid hc
      have h1 : s.users.find? (fun u => decide (u._id = oid)) = some user := by
        injection h
      have h2 := List.find?_some h1
      have h3 : user._id = oid := by simpa using h2
      subst h3
      exact ⟨by simpa using hf, hc, List.mem_of_find?_eq_some h1, h1⟩

theorem postUserExercises_ok (rt : Runtime) (f : Faults) (now : Int) (s : State) (id : String)
    (description duration date : Option String) (user : User) (e : Exercise)
    (hfind : User.findById rt f s id = Except.ok (some user))
    (hv : Exercise.validate
      { _id := { n := s.nextId }, userId := user._id.toHexString, description := description,
        duration := Number duration,
        date := if truthy date then Date.new rt date else some now } = some e)
    (hf : f.save = false) :
    postUserExercises rt f now s id description duration date =
      ({ users := s.users, exercises := s.exercises ++ [e], nextId := s.nextId + 1 },
        Outcome.sent { status := 200, body := exerciseBody rt user e }) := by
  simp [postUserExercises, Exercise.save, hfind, hv, hf]

theorem postUserExercises_error (rt : Runtime) (f : Faults) (now : Int) (s : State) (id : String)
    (description duration date : Option String) (user : User)
    (hfind : User.findById rt f s id = Except.ok (some user))
    (h : Exercise.validate
      { _id := { n := s.nextId }, userId := user._id.toHexString, description := description,
        duration := Number duration,
        date := if truthy date then Date.new rt date else some now } = none ∨ f.save = true) :
    postUserExercises rt f now s id description duration date =
      ({ users := s.users, exercises := s.exercises, nextId := s.nextId + 1 },
        Outcome.sent { status := 500, body := errorBody "Error adding exercise" }) := by
  rcases h with h | h
  · simp [postUserExercises, Exercise.save, hfind, h]
  · cases hv : Exercise.validate
      { _id := { n := s.nextId }, userId := user._id.toHexString, description := description,
        duration := Number duration,
        date := if truthy date then Date.new rt date else some now } <;>
      simp [postUserExercises, Exercise.save, hfind, h, hv]

theorem postUserExercises_not_found (rt : Runtime) (f : Faults) (now : Int) (s : State)
    (id : String) (description duration date : Option String)
    (hfind : User.findById rt f s id = Except.ok none) :
    postUserExercises rt f now s id description duration date =
      (s, Outcome.sent { status := 200, body := errorBody "User not found" }) := by
  simp [postUserExercises, hfind]

theorem postUserExercises_lookup_error (rt : Runtime) (f : Faults) (now : Int) (s : State)
    (id : String) (description duration date : Option String) (err : StoreError)
    (hfind : User.findById rt f s id = Except.error err) :
    postUserExercises rt f now s id description duration date =
      (s, Outcome.sent { status := 500, body := errorBody "Error adding exercise" }) := by
  simp [postUserExercises, hfind]

theorem postUserExercises_state (rt : Runtime) (f : Faults) (now : Int) (s : State) (id : String)
    (description duration date : Option String) :
    (postUserExercises rt f now s id description duration date).1.users = s.users ∧
    ((postUserExercises rt f now s id description duration date).1.exercises = s.exercises ∨
      ∃ user e, User.findById rt f s id = Except.ok (some user) ∧
        e.userId = user._id.toHexString ∧ e.duration = Number duration ∧
        e.duration ≠ JsNum.nan ∧ e._id = { n := s.nextId } ∧
        (postUserExercises rt f now s id description duration date).1.exercises =
          s.exercises ++ [e]) ∧
    s.nextId ≤ (postUserExercises rt f now s id description duration date).1.nextId := by
  cases hfind : User.findById rt f s id with
  | error err =>
    rw [postUserExercises_lookup_error rt f now s id description duration date err hfind]
    exact ⟨rfl, Or.inl rfl, le_refl _⟩
  | ok found =>
    cases found with
    | none =>
      rw [postUserExercises_not_found rt f now s id description duration date hfind]
      exact ⟨rfl, Or.inl rfl, le_refl _⟩
    | some user =>
      cases hv : Exercise.validate
        { _id := { n := s.nextId }, userId := user._id.toHexString, description := description,
          duration := Number duration,
          date := if truthy date then Date.new rt date else some now } with
      | none =>
        rw [postUserExercises_error rt f now s id description duration date user hfind
          (Or.inl hv)]
        exact ⟨rfl, Or.inl rfl, Nat.le_succ _⟩
      | some e =>
        obtain ⟨h1, h2, h3, h4, h5, h6, h7, h8⟩ := exerciseValidate_some _ _ hv
        cases hf : f.save with
        | true =>
          rw [postUserExercises_error rt f now s id description duration date user hfind
            (Or.inr hf)]
          exact ⟨rfl, Or.inl rfl, Nat.le_succ _⟩
        | false =>
          rw [postUserExercises_ok rt f now s id description duration date user e hfind hv hf]
          exact ⟨rfl, Or.inr ⟨user, e, rfl, h2, h4, h8, h1, rfl⟩, Nat.le_succ _⟩

theorem getUserLogs_ok (rt : Runtime) (f : Faults) (s : State) (id : String)
    (from_ to_ limit : Option String) (user : User) (rows : List LogRow)
    (hfind : User.findById rt f s id = Except.ok (some user))
    (hrows : Exercise.find f s (logsFilter rt user from_ to_)
      (if truthy limit then some (Number limit) else none) = Except.ok rows) :
    getUserLogs rt f s id from_ to_ limit =
      (s, Outcome.sent { status := 200, body := logsBody rt user rows }) := by
  simp [getUserLogs, hfind, hrows]

theorem getUserLogs_error (rt : Runtime) (f : Faults) (s : State) (id : String)
    (from_ to_ limit : Option String) (user : User) (err : StoreError)
    (hfind : User.findById rt f s id = Except.ok (some user))
    (hrows : Exercise.find f s (logsFilter rt user from_ to_)
      (if truthy limit then some (Number limit) else none) = Except.error err) :
    getUserLogs rt f s id from_ to_ limit =
      (s, Outcome.sent { status := 500, body := errorBody "Error fetching logs" }) := by
  simp [getUserLogs, hfind, hrows]

/-! ## Reachable states -/

theorem handle_users (rt : Runtime) (env : Env) (s : State) (req : Request) :
    (handle rt env s req).1.users = s.users ∨
      ∃ name, name ≠ "" ∧
        (handle rt env s req).1.users =
          s.users ++ [{ _id := { n := s.nextId }, username := name }] := by
  cases req with
  | postUsers username =>
    rcases (postUsers_state env.faults s username).2.2 with h | ⟨name, _, hne, h⟩
    · exact Or.inl h
    · exact Or.inr ⟨name, hne, h⟩
  | getUsers => exact Or.inl (by simp [handle, getUsers_state])
  | postUserExercises id description duration date =>
    exact Or.inl (postUserExercises_state rt env.faults env.now s id description duration date).1
  | getUserLogs id from_ to_ limit => exact Or.inl (by simp [handle, getUserLogs_state])

theorem handle_exercises (rt : Runtime) (env : Env) (s : State) (req : Request) :
    (handle rt env s req).1.exercises = s.exercises ∨
      ∃ user e, user ∈ s.users ∧ e.userId = user._id.toHexString ∧
        e.duration ≠ JsNum.nan ∧
        (handle rt env s req).1.exercises = s.exercises ++ [e] := by
  cases req with
  | postUsers username => exact Or.inl (postUsers_state env.faults s username).1
  | getUsers => exact Or.inl (by simp [handle, getUsers_state])
  | postUserExercises id description duration date =>
    rcases (postUserExercises_state rt env.faults env.now s id description duration date).2.1
      with h | ⟨user, e, hfind, hu, _, hd, _, h⟩
    · exact Or.inl h
    · exact Or.inr ⟨user, e, (User.findById_some rt env.faults s id user hfind).2.2.1, hu, hd, h⟩
  | getUserLogs id from_ to_ limit => exact Or.inl (by simp [handle, getUserLogs_state])

theorem handle_nextId (rt : Runtime) (env : Env) (s : State) (req : Request) :
    s.nextId ≤ (handle rt env s req).1.nextId ∧
      ((handle rt env s req).1.users ≠ s.users → s.nextId < (handle rt env s req).1.nextId) := by
  cases req with
  | postUsers username =>
    have h := (postUsers_state env.faults s username).2.1
    simp only [handle]
    omega
  | getUsers => simp [handle, getUsers_state]
  | postUserExercises id description duration date =>
    have h := postUserExercises_state rt env.faults env.now s id description duration date
    exact ⟨h.2.2, fun hne => absurd h.1 hne⟩
  | getUserLogs id from_ to_ limit => simp [handle, getUserLogs_state]

theorem handle_inv (rt : Runtime) (env : Env) (s : State) (req : Request) (h : Inv s) :
    Inv (handle rt env s req).1 := by
  obtain ⟨h1, h2, h3⟩ := h
  have hn := handle_nextId rt env s req
  have hu := handle_users rt env s req
  have he := handle_exercises rt env s req
  have hsub : ∀ u ∈ s.users, u ∈ (handle rt env s req).1.users := by
    intro u hmem
    rcases hu with hu | ⟨name, _, hu⟩
    · rw [hu]; exact hmem
    · rw [hu]; exact List.mem_append_left _ hmem
  refine ⟨?_, ?_, ?_⟩
  · intro u hmem
    rcases hu with hu | ⟨name, _, hu⟩
    · rw [hu] at hmem
      exact lt_of_lt_of_le (h1 u hmem) hn.1
    · have hlt : s.nextId < (handle rt env s req).1.nextId := by
        apply hn.2
        rw [hu]
        simp
      rw [hu] at hmem
      rcases List.mem_append.1 hmem with hm | hm
      · exact lt_trans (h1 u hm) hlt
      · have : u = { _id := { n := s.nextId }, username := name } := by simpa using hm
        rw [this]
        exact hlt
  · intro e hmem
    rcases he with he | ⟨user, e1, huser, hid, _, he⟩
    · rw [he] at hmem
      obtain ⟨u, hum, hue⟩ := h2 e hmem
      exact ⟨u, hsub u hum, hue⟩
    · rw [he] at hmem
      rcases List.mem_append.1 hmem with hm | hm
      · obtain ⟨u, hum, hue⟩ := h2 e hm
        exact ⟨u, hsub u hum, hue⟩
      · have : e = e1 := by simpa using hm
        rw [this]
        exact ⟨user, hsub user huser, hid⟩
  · intro e hmem
    rcases he with he | ⟨user, e1, _, _, hd, he⟩
    · rw [he] at hmem
      exact h3 e hmem
    · rw [he] at hmem
      rcases List.mem_append.1 hmem with hm | hm
      · exact h3 e hm
      · have : e = e1 := by simpa using hm
        rw [this]
        exact hd

theorem Inv_empty : Inv State.empty := by
  simp [Inv, State.empty]

theorem Reachable.inv (rt : Runtime) (s : State) (h : Reachable rt s) : Inv s := by
  induction h with
  | init => exact Inv_empty
  | step s env req _ ih => exact handle_inv rt env s req ih

theorem Reachable.run (rt : Runtime) (reqs : List (Env × Request)) :
    ∀ s, Reachable rt s → Reachable rt (run rt s reqs) := by
  induction reqs with
  | nil => intro s h; exact h
  | cons r rest ih =>
    intro s h
    obtain ⟨env, req⟩ := r
    exact ih _ (Reachable.step s env req h)

theorem run_users_append (rt : Runtime) (reqs : List (Env × Request)) :
    ∀ s, ∃ more, (run rt s reqs).users = s.users ++ more := by
  induction reqs with
  | nil => intro s; exact ⟨[], by simp [run]⟩
  | cons r rest ih =>
    intro s
    obtain ⟨env, req⟩ := r
    obtain ⟨more, hm⟩ := ih (handle rt env s req).1
    rcases handle_users rt env s req with hu | ⟨name, _, hu⟩
    · exact ⟨more, by simp only [run]; rw [hm, hu]⟩
    · exact ⟨{ _id := { n := s.nextId }, username := name } :: more, by
        simp only [run]; rw [hm, hu]; simp⟩

theorem run_exercises_append (rt : Runtime) (reqs : List (Env × Request)) :
    ∀ s, ∃ more, (run rt s reqs).exercises = s.exercises ++ more := by
  induction reqs with
  | nil => intro s; exact ⟨[], by simp [run]⟩
  | cons r rest ih =>
    intro s
    obtain ⟨env, req⟩ := r
    obtain ⟨more, hm⟩ := ih (handle rt env s req).1
    rcases handle_exercises rt env s req with hu | ⟨_, e, _, _, _, hu⟩
    · exact ⟨more, by simp only [run]; rw [hm, hu]⟩
    · exact ⟨e :: more, by simp only [run]; rw [hm, hu]; simp⟩

/-! ## The logs query -/

theorem truthy_none : truthy none = false := rfl

theorem logsFilter_valid (rt : Runtime) (user : User) (from_ to_ : Option String)
    (hfrom : truthy from_ = true → Date.new rt from_ ≠ none)
    (hto : truthy to_ = true → Date.new rt to_ ≠ none) :
    (logsFilter rt user from_ to_).valid = true := by
  unfold logsFilter Filter.valid
  cases h1 : truthy from_ <;> cases h2 : truthy to_ <;> simp [boundValid]
  · have := hto h2
    cases hd : Date.new rt to_ with
    | none => exact absurd hd this
    | some t => simp
  · have := hfrom h1
    cases hd : Date.new rt from_ with
    | none => exact absurd hd this
    | some t => simp
  · have a := hfrom h1
    have b := hto h2
    cases hd : Date.new rt from_ with
    | none => exact absurd hd a
    | some t =>
      cases hd2 : Date.new rt to_ with
      | none => exact absurd hd2 b
      | some t2 => simp

theorem logsFilter_matches (rt : Runtime) (user : User) (from_ to_ : Option String)
    (e : Exercise) :
    (logsFilter rt user from_ to_).matches e =
      (decide (e.userId = user._id.toHexString) &&
        (match givenBound rt from_ with
          | some l => decide (l ≤ e.date)
          | Option.none => true) &&
        (match givenBound rt to_ with
          | some h => decide (e.date ≤ h)
          | Option.none => true)) := by
  unfold logsFilter Filter.matches givenBound
  cases h1 : truthy from_ <;> cases h2 : truthy to_ <;>
    cases hd : Date.new rt from_ <;> cases hd2 : Date.new rt to_ <;>
    simp [satisfiesGte, satisfiesLte, Bool.and_assoc]

theorem filter_logsFilter (rt : Runtime) (s : State) (user : User) (from_ to_ : Option String) :
    s.exercises.filter (logsFilter rt user from_ to_).matches =
      specLog s user (givenBound rt from_) (givenBound rt to_) := by
  unfold specLog
  congr 1
  funext e
  exact logsFilter_matches rt user from_ to_ e

theorem Exercise.find_no_limit (rt : Runtime) (f : Faults) (s : State) (user : User)
    (from_ to_ : Option String) (hf : f.find = false)
    (hfrom : truthy from_ = true → Date.new rt from_ ≠ none)
    (hto : truthy to_ = true → Date.new rt to_ ≠ none) :
    Exercise.find f s (logsFilter rt user from_ to_) none =
      Except.ok ((specLog s user (givenBound rt from_) (givenBound rt to_)).map
        Exercise.select) := by
  unfold Exercise.find
  rw [logsFilter_valid rt user from_ to_ hfrom hto, filter_logsFilter]
  simp [hf, applyLimit]

theorem applyLimit_nat (L : Nat) (rows : List LogRow) :
    applyLimit (some (JsNum.fin (L : ℚ))) rows =
      Except.ok (if L = 0 then rows else rows.take L) := by
  unfold applyLimit
  by_cases h : L = 0
  · simp [h]
  · simp [h]

theorem Exercise.find_limit (rt : Runtime) (f : Faults) (s : State) (user : User)
    (from_ to_ : Option String) (L : Nat) (hf : f.find = false)
    (hfrom : truthy from_ = true → Date.new rt from_ ≠ none)
    (hto : truthy to_ = true → Date.new rt to_ ≠ none) :
    Exercise.find f s (logsFilter rt user from_ to_) (some (JsNum.fin (L : ℚ))) =
      Except.ok
        (if L = 0 then
          (specLog s user (givenBound rt from_) (givenBound rt to_)).map Exercise.select
        else
          ((specLog s user (givenBound rt from_) (givenBound rt to_)).map
            Exercise.select).take L) := by
  unfold Exercise.find
  rw [logsFilter_valid rt user from_ to_ hfrom hto, filter_logsFilter, applyLimit_nat]
  simp [hf]

theorem User.findById_append (rt : Runtime) (f f2 : Faults) (s s2 : State) (id : String)
    (user : User) (more : List User)
    (h : User.findById rt f s id = Except.ok (some user))
    (hf2 : f2.findById = false) (hs2 : s2.users = s.users ++ more) :
    User.findById rt f2 s2 id = Except.ok (some user) := by
  obtain ⟨_, hc, _, hfound⟩ := User.findById_some rt f s id user h
  unfold User.findById
  simp only [hf2, hc, hs2]
  rw [List.find?_append, hfound]
  rfl

theorem getUserLogs_not_found (rt : Runtime) (f : Faults) (s : State) (id : String)
    (from_ to_ limit : Option String)
    (hfind : User.findById rt f s id = Except.ok none) :
    getUserLogs rt f s id from_ to_ limit =
      (s, Outcome.sent ⟨200, errorBody "User not found"⟩) := by
  simp [getUserLogs, hfind]

theorem getUserLogs_lookup_error (rt : Runtime) (f : Faults) (s : State) (id : String)
    (from_ to_ limit : Option String) (err : StoreError)
    (hfind : User.findById rt f s id = Except.error err) :
    getUserLogs rt f s id from_ to_ limit =
      (s, Outcome.sent ⟨500, errorBody "Error fetching logs"⟩) := by
  simp [getUserLogs, hfind]

theorem User.findById_fault (rt : Runtime) (f : Faults) (s : State) (id : String)
    (h : f.findById = true) :
    User.findById rt f s id = Except.error StoreError.unavailable := by
  simp [User.findById, h]

theorem Exercise.find_fault (f : Faults) (s : State) (fl : Filter) (limit : Option JsNum)
    (h : f.find = true) :
    Exercise.find f s fl limit = Except.error StoreError.unavailable := by
  simp [Exercise.find, h]

/-- The three handlers with a `try` answer a rejected store call with status 500 and a
JSON error body. -/
theorem store_failure_caught_with_try (rt : Runtime) (f : Faults) (now : Int) (s : State)
    (id : String) (a b c : Option String) :
    (f.save = true → (postUsers f s a).2 =
      Outcome.sent ⟨500, Json.obj [("error", Json.str "Error creating user")]⟩) ∧
    (f.findById = true → (postUserExercises rt f now s id a b c).2 =
      Outcome.sent ⟨500, Json.obj [("error", Json.str "Error adding exercise")]⟩) ∧
    (f.save = true → ∀ user, User.findById rt f s id = Except.ok (some user) →
      (postUserExercises rt f now s id a b c).2 =
        Outcome.sent ⟨500, Json.obj [("error", Json.str "Error adding exercise")]⟩) ∧
    (f.findById = true → (getUserLogs rt f s id a b c).2 =
      Outcome.sent ⟨500, Json.obj [("error", Json.str "Error fetching logs")]⟩) ∧
    (f.find = true → ∀ user, User.findById rt f s id = Except.ok (some user) →
      (getUserLogs rt f s id a b c).2 =
        Outcome.sent ⟨500, Json.obj [("error", Json.str "Error fetching logs")]⟩) := by
  refine ⟨?_, ?_, ?_, ?_, ?_⟩
  · intro h
    rw [postUsers_error f s a (Or.inr h)]
    rfl
  · intro h
    rw [postUserExercises_lookup_error rt f now s id a b c _ (User.findById_fault rt f s id h)]
    rfl
  · intro h user hfind
    rw [postUserExercises_error rt f now s id a b c user hfind (Or.inr h)]
    rfl
  · intro h
    rw [getUserLogs_lookup_error rt f s id a b c _ (User.findById_fault rt f s id h)]
    rfl
  · intro h user hfind
    rw [getUserLogs_error rt f s id a b c user _ hfind (Exercise.find_fault f s _ _ h)]
    rfl

/-! ## The claims -/

/-- C1 (as stated, refuted). The identifier `abc` is the identifier of no stored user,
yet adding an entry for it answers `{error: "Error adding exercise"}` with status 500:
the lookup cannot cast it and rejects, which the `catch` turns into the generic error. -/
theorem addEntry_malformed_identifier :
    (∀ u ∈ threeEntries.users, u._id.toHexString ≠ "abc") ∧
    utcRuntime.castObjectId "abc" = none ∧
    postUserExercises utcRuntime Faults.none 0 threeEntries "abc" (some "run") (some "30")
        none =
      (threeEntries, Outcome.sent
        ⟨500, Json.obj [("error", Json.str "Error adding exercise")]⟩) :=
  ⟨by decide!, by decide!, by decide!⟩

/-- C1 (amended). For an identifier that resolves to no stored user (it casts to the
`_id` of none of them), whatever the description, duration and date: the database, so
the collection of entries, is left as it was; the response is exactly
`{error: "User not found"}` with status 200 when the lookup does not reject and the
identifier casts to an `ObjectId`, and `{error: "Error adding exercise"}` with status 500
when the lookup rejects or the identifier cannot be cast. -/
theorem addEntry_unknown_user (rt : Runtime) (f : Faults) (now : Int) (s : State)
    (id : String) (description duration date : Option String)
    (hu : ∀ u ∈ s.users, rt.castObjectId id ≠ some u._id) :
    (postUserExercises rt f now s id description duration date).1 = s ∧
    (postUserExercises rt f now s id description duration date).1.exercises = s.exercises ∧
    (f.findById = false → (∃ oid, rt.castObjectId id = some oid) →
      (postUserExercises rt f now s id description duration date).2 =
        Outcome.sent ⟨200, Json.obj [("error", Json.str "User not found")]⟩) ∧
    ((f.findById = true ∨ rt.castObjectId id = none) →
      (postUserExercises rt f now s id description duration date).2 =
        Outcome.sent ⟨500, Json.obj [("error", Json.str "Error adding exercise")]⟩) := by
  cases hfind : User.findById rt f s id with
  | error err =>
    rw [postUserExercises_lookup_error rt f now s id description duration date err hfind]
    refine ⟨rfl, rfl, ?_, fun _ => rfl⟩
    intro hf hc
    obtain ⟨oid, hc⟩ := hc
    simp [User.findById, hf, hc] at hfind
  | ok found =>
    cases found with
    | some user =>
      obtain ⟨_, hc, hmem, _⟩ := User.findById_some rt f s id user hfind
      exact absurd hc (hu user hmem)
    | none =>
      rw [postUserExercises_not_found rt f now s id description duration date hfind]
      refine ⟨rfl, rfl, fun _ _ => rfl, ?_⟩
      intro h
      rcases h with h | h
      · rw [User.findById_fault rt f s id h] at hfind
        cases hfind
      · simp [User.findById, h] at hfind
        split at hfind <;> cases hfind

theorem addEntry_unknown_user_witness :
    (∀ u ∈ threeEntries.users,
      utcRuntime.castObjectId "00000000000000000000000f" ≠ some u._id) ∧
    utcRuntime.castObjectId "00000000000000000000000f" = some { n := 15 } ∧
    postUserExercises utcRuntime Faults.none 0 threeEntries "00000000000000000000000f"
        (some "run") (some "30") none =
      (threeEntries, Outcome.sent
        ⟨200, Json.obj [("error", Json.str "User not found")]⟩) :=
  ⟨by decide!, by decide!,
    Prod.ext
      (addEntry_unknown_user utcRuntime Faults.none 0 threeEntries "00000000000000000000000f"
        (some "run") (some "30") none (by decide!)).1
      ((addEntry_unknown_user utcRuntime Faults.none 0 threeEntries "00000000000000000000000f"
        (some "run") (some "30") none (by decide!)).2.2.1 rfl ⟨{ n := 15 }, by decide!⟩)⟩

/-- C7 (the code at the failing input). When the read of `GET /api/users` rejects, the
handler sends nothing and the rejection escapes it: there is no `try` around the read. -/
theorem listAll_read_failure_escapes (s : State) :
    getUsers readsFail s = (s, Outcome.rejected) := by
  simp [getUsers, User.find, readsFail]

/-- C8. In every state reachable from the empty database through the four routes, every
stored exercise's `userId` is the identifier of a stored user. -/
theorem exercise_owner_is_stored (rt : Runtime) (s : State) (h : Reachable rt s) :
    ∀ e ∈ s.exercises, ∃ u ∈ s.users, e.userId = u._id.toHexString :=
  (Reachable.inv rt s h).2.1

theorem exercise_owner_is_stored_witness :
    Reachable utcRuntime threeEntries ∧
    threeEntries.exercises.length = 3 ∧
    ∀ e ∈ threeEntries.exercises, ∃ u ∈ threeEntries.users, e.userId = u._id.toHexString :=
  ⟨Reachable.run utcRuntime threeEntriesScript State.empty (Reachable.init),
    by decide!,
    exercise_owner_is_stored utcRuntime threeEntries
      (Reachable.run utcRuntime threeEntriesScript State.empty (Reachable.init))⟩

/-- C9. In a reachable state, registering a name that passes validation (it is not
empty) while the insert does not reject answers `{username, _id}` with the given name
and a new identifier: its rendering is not empty and differs from that of every stored
user.  The user is appended.  Names are not checked for duplicates: registering the
same name again, at any later time, succeeds with an identifier different from the
first. -/
theorem register_fresh_identifier (rt : Runtime) (s : State) (f : Faults) (name : String)
    (hs : Reachable rt s) (hf : f.save = false) (hname : name ≠ "") :
    ∃ id : ObjectId,
      postUsers f s (some name) =
        ({ users := s.users ++ [{ _id := id, username := name }],
           exercises := s.exercises, nextId := s.nextId + 1 },
         Outcome.sent ⟨200,
            Json.obj [("username", Json.str name), ("_id", Json.str id.toHexString)]⟩) ∧
      id.toHexString ≠ "" ∧
      (∀ u ∈ s.users, u._id.toHexString ≠ id.toHexString) ∧
      ∀ (later : List (Env × Request)) (f2 : Faults), f2.save = false →
        ∃ id2 : ObjectId,
          (postUsers f2 (run rt (postUsers f s (some name)).1 later) (some name)).2 =
            Outcome.sent ⟨200,
            Json.obj [("username", Json.str name),
                ("_id", Json.str id2.toHexString)]⟩ ∧
          id2.toHexString ≠ id.toHexString := by
  have hval : ∀ n : Nat, User.validate { _id := { n := n }, username := some name } =
      some { _id := { n := n }, username := name } := by
    intro n
    simp [User.validate, hname]
  have h1 := postUsers_ok f s (some name) _ (hval s.nextId) hf
  refine ⟨{ n := s.nextId }, h1, ObjectId.toHexString_ne_empty _, ?_, ?_⟩
  · intro u hu heq
    have := ObjectId.toHexString_injective _ _ heq
    have hlt := (Reachable.inv rt s hs).1 u hu
    rw [this] at hlt
    exact lt_irrefl _ hlt
  · intro later f2 hf2
    have hr1 : Reachable rt (postUsers f s (some name)).1 :=
      Reachable.step s { faults := f, now := 0 } (Request.postUsers (some name)) hs
    have hr2 := Reachable.run rt later _ hr1
    have h2 := postUsers_ok f2 (run rt (postUsers f s (some name)).1 later) (some name) _
      (hval _) hf2
    refine ⟨{ n := (run rt (postUsers f s (some name)).1 later).nextId }, ?_, ?_⟩
    · rw [h2]
      rfl
    · intro heq
      have hid := ObjectId.toHexString_injective _ _ heq
      obtain ⟨more, hmore⟩ := run_users_append rt later (postUsers f s (some name)).1
      have hmem : ({ _id := { n := s.nextId }, username := name } : User) ∈
          (run rt (postUsers f s (some name)).1 later).users := by
        rw [hmore, h1]
        simp
      have hlt := (Reachable.inv rt _ hr2).1 _ hmem
      have hn : (run rt (postUsers f s (some name)).1 later).nextId = s.nextId := by
        simpa using congrArg ObjectId.n hid
      rw [hn] at hlt
      exact lt_irrefl _ hlt

theorem register_fresh_identifier_witness :
    Reachable utcRuntime twoUsers ∧ Faults.none.save = false ∧ "Alice" ≠ "" ∧
    ∃ id : ObjectId,
      postUsers Faults.none twoUsers (some "Alice") =
        ({ users := twoUsers.users ++ [{ _id := id, username := "Alice" }],
           exercises := twoUsers.exercises, nextId := twoUsers.nextId + 1 },
         Outcome.sent ⟨200,
            Json.obj [("username", Json.str "Alice"),
             ("_id", Json.str id.toHexString)]⟩) ∧
      id.toHexString ≠ "" ∧
      (∀ u ∈ twoUsers.users, u._id.toHexString ≠ id.toHexString) :=
  ⟨Reachable.run utcRuntime twoUsersScript State.empty (Reachable.init), rfl, by decide,
    (register_fresh_identifier utcRuntime twoUsers Faults.none "Alice"
      (Reachable.run utcRuntime twoUsersScript State.empty (Reachable.init)) rfl
      (by decide)).imp fun _ h => ⟨h.1, h.2.1, h.2.2.1⟩⟩

/-- C10. When the read does not reject, `GET /api/users` answers with status 200 and an
array holding, for each stored user and in the same order, one object whose only
fields are `_id` and `username` with that user's values; the exercises play no part. -/
theorem listAll_one_item_per_user (f : Faults) (s : State) (hf : f.find = false) :
    getUsers f s =
      (s, Outcome.sent ⟨200,
            Json.arr (s.users.map fun u =>
          Json.obj [("_id", Json.str u._id.toHexString),
            ("username", Json.str u.username)])⟩) := by
  simp [getUsers, User.find, hf, userItem]

theorem listAll_one_item_per_user_witness :
    Faults.none.find = false ∧
    getUsers Faults.none twoUsers =
      (twoUsers, Outcome.sent ⟨200,
            Json.arr
          [Json.obj [("_id", Json.str "000000000000000000000000"),
             ("username", Json.str "Alice")],
           Json.obj [("_id", Json.str "000000000000000000000001"),
             ("username", Json.str "Bob")]]⟩) :=
  ⟨rfl, (listAll_one_item_per_user Faults.none twoUsers rfl).trans (by decide!)⟩

/-- C2. Without a limit, for a user the identifier resolves to and bounds that are each
absent (or empty) or a readable date, `GET /api/users/:_id/logs` answers with the stored
entries whose `userId` is that user's and whose date is at or after `from` and at or
before `to` (`specLog`, both bounds inclusive, each applied only when given), in stored
order, and `count` is their number. -/
theorem getLogs_date_range (rt : Runtime) (f : Faults) (s : State) (id : String)
    (user : User) (from_ to_ : Option String)
    (hfind : User.findById rt f s id = Except.ok (some user))
    (hf : f.find = false)
    (hfrom : truthy from_ = true → Date.new rt from_ ≠ none)
    (hto : truthy to_ = true → Date.new rt to_ ≠ none) :
    getUserLogs rt f s id from_ to_ none =
      (s, Outcome.sent ⟨200,
        Json.obj [("_id", Json.str user._id.toHexString),
          ("username", Json.str user.username),
          ("count", Json.num (JsNum.fin
            ((specLog s user (givenBound rt from_) (givenBound rt to_)).length : ℚ))),
          ("log", Json.arr
            ((specLog s user (givenBound rt from_) (givenBound rt to_)).map fun e =>
              Json.obj [("description", Json.str e.description),
                ("duration", Json.ofNumber e.duration),
                ("date", Json.str (Date.toDateString rt e.date))]))]⟩) := by
  have hrows := Exercise.find_no_limit rt f s user from_ to_ hf hfrom hto
  rw [getUserLogs_ok rt f s id from_ to_ none user _ hfind (by rw [truthy_none]; exact hrows)]
  simp [logsBody, logItem, Exercise.select, Function.comp_def]

theorem getLogs_date_range_witness :
    User.findById utcRuntime Faults.none threeEntries firstId = Except.ok (some alice) ∧
    threeEntries.exercises.map (fun e => e.date) =
      [1672531200000, 1686787200000, 1703980800000] ∧
    givenBound utcRuntime (some "2023-01-01") = some 1672531200000 ∧
    givenBound utcRuntime (some "2023-06-30") = some 1688083200000 ∧
    getUserLogs utcRuntime Faults.none threeEntries firstId (some "2023-01-01")
        (some "2023-06-30") none =
      (threeEntries, Outcome.sent ⟨200,
        Json.obj [("_id", Json.str "000000000000000000000000"),
          ("username", Json.str "Alice"),
          ("count", Json.num (JsNum.fin 2)),
          ("log", Json.arr
            [Json.obj [("description", Json.str "swim"), ("duration", Json.num (JsNum.fin 20)),
               ("date", Json.str "Sun Jan 01 2023")],
             Json.obj [("description", Json.str "run"), ("duration", Json.num (JsNum.fin 30)),
               ("date", Json.str "Thu Jun 15 2023")]])]⟩) :=
  ⟨by decide!, by decide!, by decide!, by decide!,
    (getLogs_date_range utcRuntime Faults.none threeEntries firstId alice (some "2023-01-01")
      (some "2023-06-30") (by decide!) rfl (by decide!) (by decide!)).trans (by decide!)⟩

/-- C3 (as stated, refuted). With five entries and `limit=0` all five rows are returned
and `count` is 5: a limit of `0` is no limit, so the log does not have `min(0, 5)` rows. -/
theorem getLogs_limit_zero_returns_all :
    truthy (some "0") = true ∧ Number (some "0") = JsNum.fin 0 ∧
    ∃ rows : List LogRow,
      getUserLogs utcRuntime Faults.none fiveEntries firstId none none (some "0") =
        (fiveEntries, Outcome.sent ⟨200, logsBody utcRuntime alice rows⟩) ∧
      rows.length = 5 ∧ rows.length ≠ min 0 5 :=
  ⟨by decide!, by decide!, fiveEntries.exercises.map Exercise.select, by decide!, by decide!,
    by decide!⟩

/-- C3 (amended). With a supplied limit that denotes a natural number `L`, for a user the
identifier resolves to and usable bounds: when `L` is positive the log is the first `L`
rows of the filtered result, so it has `min(L, m)` rows; when `L` is `0` the log is the
whole filtered result; in both cases `count` is the number of rows of the log. -/
theorem getLogs_limit (rt : Runtime) (f : Faults) (s : State) (id : String)
    (user : User) (from_ to_ limit : Option String) (L : Nat)
    (hfind : User.findById rt f s id = Except.ok (some user))
    (hf : f.find = false)
    (hfrom : truthy from_ = true → Date.new rt from_ ≠ none)
    (hto : truthy to_ = true → Date.new rt to_ ≠ none)
    (hgiven : truthy limit = true) (hL : Number limit = JsNum.fin (L : ℚ)) :
    let matching := (specLog s user (givenBound rt from_) (givenBound rt to_)).map fun e =>
      Json.obj [("description", Json.str e.description),
        ("duration", Json.ofNumber e.duration),
        ("date", Json.str (Date.toDateString rt e.date))]
    let rows := if L = 0 then matching else matching.take L
    getUserLogs rt f s id from_ to_ limit =
        (s, Outcome.sent ⟨200,
          Json.obj [("_id", Json.str user._id.toHexString),
            ("username", Json.str user.username),
            ("count", Json.num (JsNum.fin (rows.length : ℚ))),
            ("log", Json.arr rows)]⟩) ∧
      (0 < L → rows.length = min L matching.length) := by
  intro matching rows
  have hrows := Exercise.find_limit rt f s user from_ to_ L hf hfrom hto
  have hlim : (if truthy limit then some (Number limit) else none) =
      some (JsNum.fin (L : ℚ)) := by
    simp [hgiven, hL]
  rw [getUserLogs_ok rt f s id from_ to_ limit user _ hfind (by rw [hlim]; exact hrows)]
  constructor
  · by_cases h0 : L = 0
    · simp [logsBody, logItem, Exercise.select, Function.comp_def, h0, rows, matching]
    · simp [logsBody, logItem, Exercise.select, Function.comp_def, h0, rows, matching,
        List.map_take]
  · intro hpos
    have h0 : L ≠ 0 := by omega
    simp [rows, h0, List.length_take]

theorem getLogs_limit_witness :
    User.findById utcRuntime Faults.none fiveEntries firstId = Except.ok (some alice) ∧
    (specLog fiveEntries alice none none).length = 5 ∧
    truthy (some "2") = true ∧ Number (some "2") = JsNum.fin ((2 : Nat) : ℚ) ∧
    getUserLogs utcRuntime Faults.none fiveEntries firstId none none (some "2") =
      (fiveEntries, Outcome.sent ⟨200,
        Json.obj [("_id", Json.str "000000000000000000000000"),
          ("username", Json.str "Alice"),
          ("count", Json.num (JsNum.fin 2)),
          ("log", Json.arr
            [Json.obj [("description", Json.str "a"), ("duration", Json.num (JsNum.fin 1)),
               ("date", Json.str "Sun Jan 01 2023")],
             Json.obj [("description", Json.str "b"), ("duration", Json.num (JsNum.fin 2)),
               ("date", Json.str "Mon Jan 02 2023")]])]⟩) :=
  ⟨by decide!, by decide!, by decide!, by decide!,
    (getLogs_limit utcRuntime Faults.none fiveEntries firstId alice none none (some "2") 2
      (by decide!) rfl (by decide!) (by decide!) (by decide!) (by decide!)).1.trans
      (by decide!)⟩

/-- C4. Round trip: when adding an entry succeeds with a view of description `d`,
duration `n` (as written in the body) and rendered date `r`, then after any further requests an unfiltered,
unlimited logs query for the same identifier whose store calls do not reject answers
with a log that contains the row `{description: d, duration: n, date: r}`. -/
theorem addEntry_getLogs_round_trip (rt : Runtime) (f : Faults) (now : Int) (s s1 : State)
    (id : String) (description duration date : Option String)
    (uid uname r d : String) (n : Json)
    (hadd : postUserExercises rt f now s id description duration date =
      (s1, Outcome.sent ⟨200,
        Json.obj [("_id", Json.str uid), ("username", Json.str uname), ("date", Json.str r),
          ("duration", n), ("description", Json.str d)]⟩))
    (later : List (Env × Request)) (f2 : Faults)
    (hlookup : f2.findById = false) (hread : f2.find = false) :
    ∃ rows : List Json,
      getUserLogs rt f2 (run rt s1 later) id none none none =
        (run rt s1 later, Outcome.sent ⟨200,
          Json.obj [("_id", Json.str uid), ("username", Json.str uname),
            ("count", Json.num (JsNum.fin (rows.length : ℚ))), ("log", Json.arr rows)]⟩) ∧
      Json.obj [("description", Json.str d), ("duration", n), ("date", Json.str r)]
        ∈ rows := by
  cases hfind : User.findById rt f s id with
  | error err =>
    rw [postUserExercises_lookup_error rt f now s id description duration date err hfind] at hadd
    simp [errorBody] at hadd
  | ok found =>
    cases found with
    | none =>
      rw [postUserExercises_not_found rt f now s id description duration date hfind] at hadd
      simp [errorBody] at hadd
    | some user =>
      cases hv : Exercise.validate
        { _id := { n := s.nextId }, userId := user._id.toHexString, description := description,
          duration := Number duration,
          date := if truthy date then Date.new rt date else some now } with
      | none =>
        rw [postUserExercises_error rt f now s id description duration date user hfind
          (Or.inl hv)] at hadd
        simp [errorBody] at hadd
      | some e =>
        cases hf : f.save with
        | true =>
          rw [postUserExercises_error rt f now s id description duration date user hfind
            (Or.inr hf)] at hadd
          simp [errorBody] at hadd
        | false =>
          rw [postUserExercises_ok rt f now s id description duration date user e hfind hv hf]
            at hadd
          obtain ⟨_, hown, _, _, _, _, _, _⟩ := exerciseValidate_some _ _ hv
          have hs1 : s1 = State.mk s.users (s.exercises ++ [e]) (s.nextId + 1) :=
            (congrArg Prod.fst hadd).symm
          have hbody : exerciseBody rt user e =
              Json.obj [("_id", Json.str uid), ("username", Json.str uname),
                ("date", Json.str r), ("duration", n), ("description", Json.str d)] := by
            have := congrArg Prod.snd hadd
            simpa using this
          simp only [exerciseBody, Json.obj.injEq, List.cons.injEq, Prod.mk.injEq, Json.str.injEq,
            Json.num.injEq, true_and, and_true] at hbody
          obtain ⟨huid, huname, hr, hn, hd⟩ := hbody
          obtain ⟨moreU, hU⟩ := run_users_append rt later s1
          obtain ⟨moreE, hE⟩ := run_exercises_append rt later s1
          have hfind2 : User.findById rt f2 (run rt s1 later) id = Except.ok (some user) :=
            User.findById_append rt f f2 s (run rt s1 later) id user moreU hfind hlookup
              (by rw [hU, hs1])
          have hrows := Exercise.find_no_limit rt f2 (run rt s1 later) user none none hread
            (by simp [truthy]) (by simp [truthy])
          rw [getUserLogs_ok rt f2 (run rt s1 later) id none none none user _ hfind2
            (by rw [truthy_none]; exact hrows)]
          refine ⟨((specLog (run rt s1 later) user (givenBound rt none)
            (givenBound rt none)).map Exercise.select).map (logItem rt), ?_, ?_⟩
          · simp [logsBody, huid, huname]
          · have hmem : e ∈ specLog (run rt s1 later) user (givenBound rt none)
                (givenBound rt none) := by
              unfold specLog
              rw [List.mem_filter]
              refine ⟨?_, ?_⟩
              · rw [hE, hs1]
                simp
              · simp [givenBound, truthy, hown]
            have h1 := List.mem_map_of_mem Exercise.select hmem
            have h2 := List.mem_map_of_mem (logItem rt) h1
            have h3 : logItem rt e.select =
                Json.obj [("description", Json.str d), ("duration", n),
                  ("date", Json.str r)] := by
              simp [logItem, Exercise.select, hr, hn, hd]
            rw [h3] at h2
            exact h2

theorem addEntry_getLogs_round_trip_witness :
    ∃ rows : List Json,
      getUserLogs utcRuntime Faults.none
          (run utcRuntime threeEntries [(calm, Request.postUsers (some "Bob"))]) firstId
          none none none =
        (run utcRuntime threeEntries [(calm, Request.postUsers (some "Bob"))],
          Outcome.sent ⟨200,
            Json.obj [("_id", Json.str "000000000000000000000000"),
              ("username", Json.str "Alice"),
              ("count", Json.num (JsNum.fin (rows.length : ℚ))), ("log", Json.arr rows)]⟩) ∧
      Json.obj [("description", Json.str "row"), ("duration", Json.num (JsNum.fin 40)),
        ("date", Json.str "Sun Dec 31 2023")] ∈ rows :=
  addEntry_getLogs_round_trip utcRuntime Faults.none 1704067200000
    (run utcRuntime State.empty (threeEntriesScript.take 3)) threeEntries firstId
    (some "row") (some "40") (some "2023-12-31")
    "000000000000000000000000" "Alice" "Sun Dec 31 2023" "row" (Json.num (JsNum.fin 40))
    (by decide!) [(calm, Request.postUsers (some "Bob"))] Faults.none rfl rfl

/-- C5 (as stated, refuted). For the existing user Alice, the duration input
`Infinity` passes validation and the view carries `duration: null`, which is no number;
the input `9007199254740993` comes back as 9007199254740992, the nearest double, not
the number the input denotes. -/
theorem addEntry_duration_not_the_number_denoted :
    (postUserExercises utcRuntime Faults.none 1704067200000 twoUsers firstId (some "run")
        (some "Infinity") none).2 =
      Outcome.sent ⟨200,
        Json.obj [("_id", Json.str "000000000000000000000000"),
          ("username", Json.str "Alice"),
          ("date", Json.str "Mon Jan 01 2024"),
          ("duration", Json.null),
          ("description", Json.str "run")]⟩ ∧
    (postUserExercises utcRuntime Faults.none 1704067200000 twoUsers firstId (some "run")
        (some "9007199254740993") none).2 =
      Outcome.sent ⟨200,
        Json.obj [("_id", Json.str "000000000000000000000000"),
          ("username", Json.str "Alice"),
          ("date", Json.str "Mon Jan 01 2024"),
          ("duration", Json.num (JsNum.fin 9007199254740992)),
          ("description", Json.str "run")]⟩ :=
  ⟨by decide!, by decide!⟩

/-- C5 (amended). For a user the identifier resolves to, when the entry passes
validation (a non-empty description, a duration that `Number` does not turn into `NaN`, a
readable date if one is supplied) and the insert does not reject, the response carries
the user's `_id` and `username`, the given description, as duration the double
`Number(duration)` when it is finite and `null` when it is an infinity, and as date the
rendering of the parsed date when a non-empty date is supplied and of the current time
when the date is absent or empty. -/
theorem addEntry_success_view (rt : Runtime) (f : Faults) (now : Int) (s : State)
    (id : String) (user : User) (description duration date : Option String)
    (desc : String) (t : Int)
    (hfind : User.findById rt f s id = Except.ok (some user))
    (hsave : f.save = false)
    (hdesc : description = some desc) (hne : desc ≠ "")
    (hdur : Number duration ≠ JsNum.nan)
    (hdate : ((date = none ∨ date = some "") ∧ t = now) ∨
      ∃ ds, date = some ds ∧ ds ≠ "" ∧ rt.dateParse ds = some t) :
    (postUserExercises rt f now s id description duration date).2 =
        Outcome.sent ⟨200,
          Json.obj [("_id", Json.str user._id.toHexString),
            ("username", Json.str user.username),
            ("date", Json.str (Date.toDateString rt t)),
            ("duration", Json.ofNumber (Number duration)),
            ("description", Json.str desc)]⟩ ∧
      (∀ q, Number duration = JsNum.fin q →
        Json.ofNumber (Number duration) = Json.num (JsNum.fin q)) ∧
      (∀ b, Number duration = JsNum.inf b → Json.ofNumber (Number duration) = Json.null) := by
  have hd : (if truthy date then Date.new rt date else some now) = some t := by
    rcases hdate with ⟨h | h, ht⟩ | ⟨ds, h, hds, hp⟩
    · simp [h, truthy, ht]
    · simp [h, truthy, ht]
    · simp [h, truthy, hds, Date.new, hp]
  have hv : Exercise.validate
      { _id := { n := s.nextId }, userId := user._id.toHexString, description := description,
        duration := Number duration,
        date := if truthy date then Date.new rt date else some now } =
      some (Exercise.mk { n := s.nextId } user._id.toHexString desc (Number duration) t) := by
    rw [hd, hdesc]
    simp [Exercise.validate, hne, hdur, ObjectId.toHexString_ne_empty]
  rw [postUserExercises_ok rt f now s id description duration date user _ hfind hv hsave]
  refine ⟨rfl, ?_, ?_⟩
  · intro q hq
    rw [hq]
    rfl
  · intro b hb
    rw [hb]
    rfl

theorem addEntry_success_view_witness :
    User.findById utcRuntime Faults.none twoUsers firstId = Except.ok (some alice) ∧
    Number (some "30") = JsNum.fin 30 ∧
    (postUserExercises utcRuntime Faults.none 1704067200000 twoUsers firstId (some "run")
        (some "30") none).2 =
      Outcome.sent ⟨200,
        Json.obj [("_id", Json.str "000000000000000000000000"),
          ("username", Json.str "Alice"),
          ("date", Json.str "Mon Jan 01 2024"),
          ("duration", Json.num (JsNum.fin 30)),
          ("description", Json.str "run")]⟩ :=
  ⟨by decide!, by decide!,
    (addEntry_success_view utcRuntime Faults.none 1704067200000 twoUsers firstId alice
      (some "run") (some "30") none "run" 1704067200000 (by decide!) rfl rfl (by decide)
      (by decide!) (Or.inl ⟨Or.inl rfl, rfl⟩)).1.trans (by decide!)⟩

/-- C6 (as stated, refuted). After registering a user and adding entries with durations
"-5" and "30.5", the stored durations are -5 and 30.5: neither is a non-negative integer,
and the state is reachable through the API. -/
theorem duration_negative_and_fractional_stored :
    Reachable utcRuntime oddDurations ∧
    oddDurations.exercises.map (fun e => e.duration) =
      [JsNum.fin (-5), JsNum.fin (61 / 2)] ∧
    (JsNum.fin (-5)).isNonNegInteger = false ∧
    (JsNum.fin (61 / 2)).isNonNegInteger = false :=
  ⟨Reachable.run utcRuntime oddDurationsScript State.empty (Reachable.init),
    by decide!, by decide!, by decide!⟩

/-- C6 (amended). The duration is the number `Number` gives for the input, with no
rounding and no sign check: in every reachable state no stored duration is `NaN`, and a
request to add an entry either stores nothing or stores one entry, whose duration is
`Number(duration)`. -/
theorem duration_is_number_of_input (rt : Runtime) (s : State) (h : Reachable rt s) :
    (∀ e ∈ s.exercises, e.duration ≠ JsNum.nan) ∧
    ∀ (f : Faults) (now : Int) (id : String) (description duration date : Option String),
      (postUserExercises rt f now s id description duration date).1.exercises = s.exercises ∨
      ∃ e : Exercise,
        (postUserExercises rt f now s id description duration date).1.exercises =
          s.exercises ++ [e] ∧
        e.duration = Number duration := by
  refine ⟨(Reachable.inv rt s h).2.2, ?_⟩
  intro f now id description duration date
  rcases (postUserExercises_state rt f now s id description duration date).2.1 with
    h1 | ⟨_, e, _, _, hd, _, _, he⟩
  · exact Or.inl h1
  · exact Or.inr ⟨e, he, hd⟩

theorem duration_is_number_of_input_witness :
    Reachable utcRuntime oddDurations ∧
    ∀ e ∈ oddDurations.exercises, e.duration ≠ JsNum.nan :=
  ⟨Reachable.run utcRuntime oddDurationsScript State.empty (Reachable.init),
    (duration_is_number_of_input utcRuntime oddDurations
      (Reachable.run utcRuntime oddDurationsScript State.empty (Reachable.init))).1⟩

end ExerciseTracker
